import Mathlib

/-!
# Verification of the Directory Size Monitor (`AutoInfraAlertApp/app.py`)

Shallow embedding of the program's logic in Lean 4.

Embedding conventions:

* Python `float` values reached by this program are embedded exactly.
  Every float the program manipulates on the values relevant to the claims
  is an exact rational: `format_size` converts an integer byte count
  (exact below `2^53`) and divides by `1024` (a power of two, exact), and
  the two-decimal rendering `f"{x:.2f}"` is CPython's correctly-rounded
  (round-half-to-even) decimal conversion of that exact binary value;
  `parse_size` reads a decimal digit string with `float(...)`, whose value
  is the exact decimal `m / 10 ^ e`.  Because Mathlib's `ℚ` arithmetic is
  sealed against kernel reduction, the executable definitions below carry
  these rationals as explicit numerator/denominator data in `ℕ`
  (`m / 10 ^ e` for `parse_size`, `n / 1024 ^ k` for `format_size`) and
  the `ℚ`-level readings (`decimalValue`, `scaledVal`, `format_value`)
  are provided alongside with bridging lemmas.
* Python `str.isdigit` / `str.isalpha` / `upper()` are modelled on the
  ASCII range (`Char.isDigit`, `Char.isAlpha`, `Char.toUpper`); every
  string the claims mention is ASCII.
* Exceptions are modelled with `Except`; the logging side channel is
  elided (an exception's message string is dropped, only the control flow
  is kept).
* The filesystem seen by `os.walk` / `os.path.getsize` / `os.path.islink`
  is modelled by the inductive `FSNode` below.  Crucially, CPython's
  `os.walk` is called with its default `onerror=None`, which *ignores*
  the `OSError` raised by `scandir` on an unreadable or non-existent
  directory (the walk simply yields nothing for that directory); and
  `os.path.islink` returns `False` instead of raising on `OSError`.
  The model reflects that documented behaviour.
-/

namespace DirMonitor

/-! ## Size Unit Converter: `parse_size` (app.py lines 37-72) -/

/-- Error raised by `parse_size` (`ValueError("Invalid size format: ...")`);
the message text is elided. -/
inductive SizeError where
  | invalidFormat : SizeError
deriving DecidableEq, Repr

instance {ε α : Type} [DecidableEq ε] [DecidableEq α] : DecidableEq (Except ε α) := by
  intro a b
  cases a with
  | error e =>
    cases b with
    | error f => exact decidable_of_iff (e = f) (by simp)
    | ok y => exact .isFalse (by simp)
  | ok x =>
    cases b with
    | error f => exact .isFalse (by simp)
    | ok y => exact decidable_of_iff (x = y) (by simp)

/-- Model of Python `size_str.isdigit()` on ASCII strings: non-empty and
every character a decimal digit. -/
def isDigitsStr (s : String) : Bool :=
  !s.data.isEmpty && s.data.all Char.isDigit

/-- A character kept by the numeric-part filter of `parse_size`
(`c.isdigit() or c == '.'`). -/
def isNumChar (c : Char) : Bool :=
  c.isDigit || c == '.'

/-- `''.join(c for c in size_str if c.isdigit() or c == '.')`. -/
def numFilter (s : String) : String :=
  ⟨s.data.filter isNumChar⟩

/-- `''.join(c for c in size_str if c.isalpha()).upper()`. -/
def upperAlpha (s : String) : String :=
  ⟨(s.data.filter Char.isAlpha).map Char.toUpper⟩

/-- Decimal value of a digit list (model of Python `int` on a digit string,
and of the integer / fractional parts read by `float`). -/
def digitsVal (cs : List Char) : ℕ :=
  cs.foldl (fun a c => 10 * a + (c.toNat - 48)) 0

/-- Model of Python `float(s)` restricted to the strings that can reach it
in `parse_size` (only digits and dots survive the filter): defined iff the
string holds at least one digit, at most one dot, and nothing else.  The
exact value of the float is returned as explicit numerator/denominator
data `(m, e)` standing for `m / 10 ^ e`. -/
def decimalScaled (s : String) : Option (ℕ × ℕ) :=
  let cs := s.data
  if cs.all isNumChar && cs.any Char.isDigit && cs.count '.' ≤ 1 then
    let ip := cs.takeWhile (fun c => !(c == '.'))
    let fp := (cs.dropWhile (fun c => !(c == '.'))).tail
    some (digitsVal ip * 10 ^ fp.length + digitsVal fp, fp.length)
  else
    none

/-- The rational value of Python `float(s)` (see `decimalScaled`). -/
def decimalValue (s : String) : Option ℚ :=
  (decimalScaled s).map (fun p => (p.1 : ℚ) / (10 : ℚ) ^ p.2)

/-- `parse_size` (app.py lines 37-72).  A pure digit string is returned as
bytes; otherwise the digit/dot characters are collected as the number, the
alphabetic characters (uppercased) as the unit, and the number is scaled by
the binary multiple of the unit and truncated to an integer with `int(...)`.
The number is the non-negative exact value `m / 10 ^ e`, so
`int((m / 10 ^ e) * mult)` is the floor, computed here as the natural
floor-division `m * mult / 10 ^ e` (see `parse_size_scale_eq_floor` below
for the bridge to `⌊q * mult⌋`).  Every failure (`float(...)` failure,
unknown unit) is re-raised as the single "Invalid size format" error. -/
def parse_size (s : String) : Except SizeError ℤ :=
  if isDigitsStr s then
    .ok (digitsVal s.data : ℤ)
  else
    match decimalScaled (numFilter s) with
    | none => .error .invalidFormat
    | some (m, e) =>
      let unit := upperAlpha s
      if unit = "KB" then .ok ((m * 1024 / 10 ^ e : ℕ) : ℤ)
      else if unit = "MB" then .ok ((m * (1024 * 1024) / 10 ^ e : ℕ) : ℤ)
      else if unit = "GB" then .ok ((m * (1024 * 1024 * 1024) / 10 ^ e : ℕ) : ℤ)
      else if unit = "TB" then .ok ((m * (1024 * 1024 * 1024 * 1024) / 10 ^ e : ℕ) : ℤ)
      else .error .invalidFormat

/-- Bridge: the natural floor-division used in `parse_size` is exactly the
mathematical floor of the float multiplication `int(size * mult)`. -/
theorem parse_size_scale_eq_floor (m e mult : ℕ) :
    ((m * mult / 10 ^ e : ℕ) : ℤ) = ⌊((m : ℚ) / (10 : ℚ) ^ e) * (mult : ℚ)⌋ := by
  have h : ((m : ℚ) / (10 : ℚ) ^ e) * (mult : ℚ) = ((m * mult : ℕ) : ℚ) / ((10 ^ e : ℕ) : ℚ) := by
    push_cast
    ring
  rw [h, Rat.floor_natCast_div_natCast, Int.ofNat_ediv]

example : parse_size "100MB" = .ok 104857600 := by decide
example : parse_size "1.5GB" = .ok 1610612736 := by decide
example : parse_size "512" = .ok 512 := by decide
example : parse_size "100XB" = .error .invalidFormat := by decide
example : parse_size "MB100" = .ok 104857600 := by decide
example : parse_size "1M0B" = .ok 10485760 := by decide
example : parse_size "1.2.3KB" = .error .invalidFormat := by decide
example : parse_size "" = .error .invalidFormat := by decide
example : parse_size "1.5" = .error .invalidFormat := by decide
example : parse_size "0.5KB" = .ok 512 := by decide

/-! ## Size Unit Converter: `format_size` (app.py lines 101-128)

The Python code carries a float `size`, initialised to `float(size_bytes)`
and divided by `1024` until it is below `1024` or the last unit is reached.
After `ui` divisions the float is *exactly* `size_bytes / 1024 ^ ui`
(division by a power of two is exact for `size_bytes < 2 ^ 53`), so the
loop below carries only the unit index and tests the exact condition
`size_bytes < 1024 ^ (ui + 1)`, which is equivalent to `size < 1024`. -/

/-- `units = [('B', 0), ('KB', 1), ('MB', 2), ('GB', 3), ('TB', 4)]`. -/
def unitsList : List (String × ℕ) :=
  [("B", 0), ("KB", 1), ("MB", 2), ("GB", 3), ("TB", 4)]

/-- The unit-selection loop of `format_size` (`for unit, index in units`):
breaks when `size < 1024` (i.e. `n < 1024 ^ (ui + 1)`) or
`unit_index == len(units) - 1`; otherwise divides `size` by 1024 and
increments `unit_index`.  The fuel is the list length. -/
def scale_loop (n : ℕ) : ℕ → ℕ → ℕ
  | ui, 0 => ui
  | ui, fuel + 1 =>
    if n < 1024 ^ (ui + 1) ∨ ui = unitsList.length - 1 then ui
    else scale_loop n (ui + 1) fuel

/-- The unit index `format_size` settles on for `n` bytes. -/
def unitIndex (n : ℕ) : ℕ :=
  scale_loop n 0 unitsList.length

/-- `units[unit_index][0]`. -/
def unitName (i : ℕ) : String :=
  (unitsList.getD i ("B", 0)).1

/-- The exact value of the float `size` at the end of the loop. -/
def scaledVal (n : ℕ) : ℚ :=
  (n : ℚ) / (1024 : ℚ) ^ unitIndex n

/-- The two-decimal rendering step of `f"{size:.2f}"`: CPython renders the
exact binary value of `size = 100 * n / (100 * 1024 ^ k)` rounded to two
decimals, i.e. the integer `c` nearest `100 * n / 1024 ^ k` (ties to even);
the rendered text is then `c / 100 "." c % 100`.  Computed on naturals. -/
def rhe2 (n k : ℕ) : ℕ :=
  let q := 100 * n
  let d := 1024 ^ k
  let t := q / d
  let r := q % d
  if 2 * r < d then t
  else if d < 2 * r then t + 1
  else if t % 2 = 0 then t else t + 1

/-- Two-digit, zero-padded fraction part of `f"{size:.2f}"`. -/
def pad2 (c : ℕ) : String :=
  if c < 10 then "0" ++ toString c else toString c

/-- `format_size` (app.py lines 101-128).  `size.is_integer()` holds iff
`1024 ^ ui ∣ n`; the integer rendering is `f"{int(size)} {unit}"` and the
fractional rendering is `f"{size:.2f} {unit}"`. -/
def format_size (n : ℕ) : String :=
  let ui := unitIndex n
  if 1024 ^ ui ∣ n then
    toString (n / 1024 ^ ui) ++ " " ++ unitName ui
  else
    let c := rhe2 n ui
    toString (c / 100) ++ "." ++ pad2 (c % 100) ++ " " ++ unitName ui

/-- The rational value denoted by the text `format_size n` (the rendered
number times the binary multiple of the rendered unit). -/
def format_value (n : ℕ) : ℚ :=
  let ui := unitIndex n
  (if 1024 ^ ui ∣ n then ((n / 1024 ^ ui : ℕ) : ℚ) else (rhe2 n ui : ℚ) / 100)
    * (1024 : ℚ) ^ ui

example : format_size 1048576 = "1 MB" := by decide
example : format_size 1500000 = "1.43 MB" := by decide
example : format_size 500 = "500 B" := by decide
example : format_size 0 = "0 B" := by decide
example : format_size 1023 = "1023 B" := by decide
example : format_size 1024 = "1 KB" := by decide
example : format_size 1536 = "1.50 KB" := by decide
example : format_size 1152 = "1.12 KB" := by decide
example : unitIndex (1024 ^ 5) = 4 := by decide

/-! ## Directory Sizer: `get_directory_size` (app.py lines 74-99)

A filesystem tree as observed by `os.walk` / `os.path.islink` /
`os.path.getsize`.  A regular file carries `some size`, or `none` when
`os.path.getsize` raises `OSError` for it (caught by the inner handler,
logged, contributes zero).  A symbolic link is skipped by the
`os.path.islink` test (`os.walk(followlinks=False)` also never descends
into link targets).  A directory carries a readability flag: `os.walk`
calls `scandir` on it and, with the default `onerror=None`, *silently
ignores* the `OSError` of an unreadable directory, yielding nothing for
it; likewise `os.walk` on a non-existent or non-directory root yields
nothing at all.  Consequently nothing inside the `try:` block of
`get_directory_size` can raise, and the `except ... raise` branch
(the spec's `DirectoryAccessError`) is unreachable. -/

inductive FSNode where
  | file : Option ℕ → FSNode
  | symlink : ℕ → FSNode
  | dir : Bool → List FSNode → FSNode

mutual

/-- Total collected by the `os.walk` loop of `get_directory_size` over one
walked node: files of a readable directory contribute their size (zero
when `getsize` fails), symlinks are skipped, subdirectories are walked
recursively; an unreadable directory yields nothing. -/
def walkTotal : FSNode → ℕ
  | .file _ => 0
  | .symlink _ => 0
  | .dir false _ => 0
  | .dir true children => walkChildren children

/-- Contribution of the entries listed inside one readable directory. -/
def walkChildren : List FSNode → ℕ
  | [] => 0
  | .file none :: rest => walkChildren rest
  | .file (some sz) :: rest => sz + walkChildren rest
  | .symlink _ :: rest => walkChildren rest
  | .dir r cs :: rest => walkTotal (.dir r cs) + walkChildren rest

end

/-- The error the spec calls `DirectoryAccessError`.  Kept to give
`get_directory_size` the fallible signature of the source (`except
Exception as e: ... raise`), although the model shows the error branch is
never taken. -/
inductive DirError where
  | accessError : DirError
deriving DecidableEq, Repr

/-- `get_directory_size` (app.py lines 74-99).  The argument is the node
the root path resolves to, or `none` when the path does not exist.
`os.walk` yields nothing for a missing root, a non-directory root, or an
unreadable root (default `onerror=None`), and per-file `getsize` errors
are caught inside the loop, so the function always returns a total. -/
def get_directory_size (root : Option FSNode) : Except DirError ℕ :=
  match root with
  | none => .ok 0
  | some t => .ok (walkTotal t)

mutual

/-- Spec-side reading (section 4.2): the sum of the sizes of every regular
file in every subdirectory under a node, with every symbolic link excluded
entirely. -/
def sumRegular : FSNode → ℕ
  | .file none => 0
  | .file (some sz) => sz
  | .symlink _ => 0
  | .dir _ children => sumRegularList children

/-- List version of `sumRegular`. -/
def sumRegularList : List FSNode → ℕ
  | [] => 0
  | c :: rest => sumRegular c + sumRegularList rest

end

mutual

/-- Every directory in the tree is readable and every regular file can be
stat'ed — the situation of claim C6. -/
def allOk : FSNode → Bool
  | .file o => o.isSome
  | .symlink _ => true
  | .dir r children => r && allOkList children

/-- List version of `allOk`. -/
def allOkList : List FSNode → Bool
  | [] => true
  | c :: rest => allOk c && allOkList rest

end

/-! ## Threshold Evaluator: `check_directories` (app.py lines 214-255) -/

/-- One `directory:<name>` entry of the loaded configuration:
`directories[dir_name] = {'path': path, 'threshold': threshold}`. -/
structure DirCheck where
  name : String
  path : String
  threshold : String
deriving DecidableEq, Repr

/-- An alert record appended by `check_directories`:
`{'name':…, 'path':…, 'size':…, 'threshold':…}`. -/
structure Alert where
  name : String
  path : String
  size : ℤ
  threshold : ℤ
deriving DecidableEq, Repr

/-- The "Exceeded by" amount rendered by `send_alerts`
(`alert['size'] - alert['threshold']`, app.py line 275). -/
def exceededBy (a : Alert) : ℤ :=
  a.size - a.threshold

/-- The filesystem as seen through path names: `fs path` is the node the
path resolves to, or `none` when `os.path.exists(path)` is false. -/
def FileSystem : Type := String → Option FSNode

/-- The body of the `for dir_name, dir_config in config['directories']`
loop for one check: skip when the path does not exist; compute the size,
parse the threshold; on any error, log and abandon only this check
(`except Exception: logger.error(...)`, no re-raise); append an alert iff
`dir_size > threshold_bytes`. -/
def checkOne (fs : FileSystem) (d : DirCheck) : Option Alert :=
  match fs d.path with
  | none => none
  | some node =>
    match get_directory_size (some node) with
    | .error _ => none
    | .ok dirSize =>
      match parse_size d.threshold with
      | .error _ => none
      | .ok thresholdBytes =>
        if thresholdBytes < (dirSize : ℤ) then
          some ⟨d.name, d.path, (dirSize : ℤ), thresholdBytes⟩
        else
          none

/-- `check_directories` (app.py lines 214-255): evaluate every configured
check in order, collecting the alerts. -/
def check_directories (fs : FileSystem) (ds : List DirCheck) : List Alert :=
  ds.filterMap (checkOne fs)

/-! ## Configuration Loader: `load_config` (app.py lines 168-212)

The configuration source is modelled at the level `configparser` hands to
`load_config`: either a read/parse failure (malformed source — note that
`ConfigParser.read` silently ignores an *unopenable* file, which then
surfaces as a missing `email` section below), or the ordered list of
sections, each a name with an ordered list of key/value options. -/

/-- One INI section: name and options. -/
abbrev IniSection := String × List (String × String)

/-- Errors escaping `load_config` (the spec's `ConfigurationError`): a
`configparser` read failure, a missing section (`KeyError` on
`config[section]`), or a missing option (`KeyError` on `section[key]`). -/
inductive ConfigError where
  | readError : ConfigError
  | missingSection : String → ConfigError
  | missingKey : String → ConfigError
deriving DecidableEq, Repr

/-- `section[key]` returning `none` on a missing option. -/
def lookupKey (opts : List (String × String)) (k : String) : Option String :=
  (opts.find? (fun kv => kv.1 == k)).map (fun kv => kv.2)

/-- `section[key]` raising `KeyError` on a missing option. -/
def getKey (opts : List (String × String)) (k : String) : Except ConfigError String :=
  match lookupKey opts k with
  | some v => .ok v
  | none => .error (.missingKey k)

/-- `config[name]` raising `KeyError` on a missing section. -/
def findSection (secs : List IniSection) (name : String) :
    Except ConfigError (List (String × String)) :=
  match secs.find? (fun s => s.1 == name) with
  | some s => .ok s.2
  | none => .error (.missingSection name)

/-- `section.split(':', 1)[1]`: everything after the first colon. -/
def afterColon (s : String) : String :=
  match s.splitOn ":" with
  | [] => ""
  | _ :: rest => String.intercalate ":" rest

/-- The `for section in config.sections(): if section.startswith('directory:')`
loop: each directory section must provide `path` and `threshold` (read in
that order; a missing one raises `KeyError`). -/
def collectDirs : List IniSection → Except ConfigError (List DirCheck)
  | [] => .ok []
  | (name, opts) :: rest =>
    if name.startsWith "directory:" then
      match lookupKey opts "path" with
      | none => .error (.missingKey "path")
      | some path =>
        match lookupKey opts "threshold" with
        | none => .error (.missingKey "threshold")
        | some threshold =>
          (collectDirs rest).map (fun ds => ⟨afterColon name, path, threshold⟩ :: ds)
    else
      collectDirs rest

/-- The `smtp` settings dict built by `load_config`. -/
structure SmtpSettings where
  host : String
  port : String
  username : String
  password : String
  use_tls : String
deriving DecidableEq, Repr

/-- The `email` configuration dict built by `load_config`. -/
structure EmailSettings where
  recipients : List String
  smtp : SmtpSettings
deriving DecidableEq, Repr

/-- The full configuration returned by `load_config`. -/
structure AppConfig where
  directories : List DirCheck
  email : EmailSettings
deriving DecidableEq, Repr

/-- `load_config` (app.py lines 168-212).  Any exception — a parse failure
of the source, or a `KeyError` for a missing section/option — is logged
and re-raised to the caller. -/
def load_config (src : Except Unit (List IniSection)) : Except ConfigError AppConfig :=
  match src with
  | .error _ => .error .readError
  | .ok secs =>
    match collectDirs secs with
    | .error e => .error e
    | .ok dirs =>
      match findSection secs "email" with
      | .error e => .error e
      | .ok emailOpts =>
        match getKey emailOpts "recipients" with
        | .error e => .error e
        | .ok recipientsRaw =>
          match findSection secs "smtp" with
          | .error e => .error e
          | .ok smtpOpts =>
            match getKey smtpOpts "host", getKey smtpOpts "port",
                getKey smtpOpts "username", getKey smtpOpts "password" with
            | .ok host, .ok port, .ok username, .ok password =>
              .ok
                { directories := dirs
                  email :=
                    { recipients := (recipientsRaw.splitOn ",").map (fun r => r.trim)
                      smtp := ⟨host, port, username, password,
                        (lookupKey smtpOpts "use_tls").getD "False"⟩ } }
            | .error e, _, _, _ => .error e
            | .ok _, .error e, _, _ => .error e
            | .ok _, .ok _, .error e, _ => .error e
            | .ok _, .ok _, .ok _, .error e => .error e

/-- Does the configuration provide every required section and option
(spec section 4.3)?  `load_config` succeeds exactly on these sources. -/
def requiredOk (secs : List IniSection) : Bool :=
  secs.all (fun s =>
    !s.1.startsWith "directory:" ||
      ((lookupKey s.2 "path").isSome && (lookupKey s.2 "threshold").isSome))
  && (match secs.find? (fun s => s.1 == "email") with
      | some e => (lookupKey e.2 "recipients").isSome
      | none => false)
  && (match secs.find? (fun s => s.1 == "smtp") with
      | some m =>
        (lookupKey m.2 "host").isSome && (lookupKey m.2 "port").isSome &&
          (lookupKey m.2 "username").isSome && (lookupKey m.2 "password").isSome
      | none => false)

/-! ## Entry Point: `main` (app.py lines 284-305) -/

/-- Observable outcome of one run of `main`: the process exit code, the
names of the directory checks that were evaluated, and the alerts raised.
`main` exits 1 when `load_config` raises, before any check runs; otherwise
it runs `check_directories` on the loaded configuration and exits 0. -/
structure RunResult where
  exitCode : ℕ
  evaluated : List String
  alerts : List Alert
deriving DecidableEq, Repr

/-- `main` (app.py lines 284-305). -/
def mainRun (src : Except Unit (List IniSection)) (fs : FileSystem) : RunResult :=
  match load_config src with
  | .error _ => ⟨1, [], []⟩
  | .ok cfg => ⟨0, cfg.directories.map (fun d => d.name), check_directories fs cfg.directories⟩

/-! ## Helper lemmas -/

theorem unitIndex_eq (n : ℕ) :
    unitIndex n =
      if n < 1024 then 0
      else if n < 1024 ^ 2 then 1
      else if n < 1024 ^ 3 then 2
      else if n < 1024 ^ 4 then 3
      else 4 := by
  show scale_loop n 0 (0 + 1 + 1 + 1 + 1 + 1) = _
  simp only [scale_loop, unitsList, List.length]
  norm_num

theorem unitIndex_le_four (n : ℕ) : unitIndex n ≤ 4 := by
  rw [unitIndex_eq]
  split_ifs <;> omega

/-- The scaled value times the chosen binary multiple recovers the byte
count: `format_size` only ever divides exactly. -/
theorem scaledVal_mul_pow (n : ℕ) : scaledVal n * (1024 : ℚ) ^ unitIndex n = n := by
  unfold scaledVal
  rw [div_mul_cancel₀]
  positivity

/-- `size.is_integer()` at the end of the loop means the chosen power of
1024 divides the byte count. -/
theorem scaledVal_den_eq_one_iff (n : ℕ) :
    (scaledVal n).den = 1 ↔ 1024 ^ unitIndex n ∣ n := by
  unfold scaledVal
  have h1024 : ((1024 : ℚ) ^ unitIndex n) = ((1024 ^ unitIndex n : ℕ) : ℚ) := by
    push_cast
    ring
  rw [h1024, Rat.den_div_natCast_eq_one_iff]
  positivity

/-- The two-decimal rendering is exact (`den = 1` after scaling by 100)
iff the chosen power of 1024 divides `100 * n`. -/
theorem hundred_scaledVal_den_eq_one_iff (n : ℕ) :
    (100 * scaledVal n).den = 1 ↔ 1024 ^ unitIndex n ∣ 100 * n := by
  unfold scaledVal
  have h : (100 : ℚ) * ((n : ℚ) / (1024 : ℚ) ^ unitIndex n)
      = ((100 * n : ℕ) : ℚ) / ((1024 ^ unitIndex n : ℕ) : ℚ) := by
    push_cast
    ring
  rw [h, Rat.den_div_natCast_eq_one_iff]
  positivity

/-- When the division is exact, `num` of the scaled value is the natural
quotient rendered by `f"{int(size)}"`. -/
theorem scaledVal_num_of_dvd (n : ℕ) (h : 1024 ^ unitIndex n ∣ n) :
    (scaledVal n).num = (n / 1024 ^ unitIndex n : ℕ) := by
  have hv : scaledVal n = ((n / 1024 ^ unitIndex n : ℕ) : ℚ) := by
    unfold scaledVal
    rw [Rat.natCast_div _ _ h]
    push_cast
    ring
  rw [hv, Rat.num_natCast]

/-- When the two-decimal rendering is exact, the rounding step returns the
exact quotient. -/
theorem rhe2_of_dvd (n k : ℕ) (h : 1024 ^ k ∣ 100 * n) :
    rhe2 n k = 100 * n / 1024 ^ k := by
  have hd : (0 : ℕ) < 1024 ^ k := by positivity
  have hr : 100 * n % 1024 ^ k = 0 := Nat.mod_eq_zero_of_dvd h
  simp [rhe2, hr, hd]

/-- The two-decimal rounding used by `f"{size:.2f}"` is within half a unit
(of the second decimal place) of the exact scaled value. -/
theorem rhe2_approx (n k : ℕ) :
    |(rhe2 n k : ℚ) - ((100 * n : ℕ) : ℚ) / ((1024 ^ k : ℕ) : ℚ)| ≤ 1 / 2 := by
  have hd : (0 : ℕ) < 1024 ^ k := by positivity
  simp only [rhe2]
  generalize 100 * n = q at *
  generalize 1024 ^ k = D at hd ⊢
  have hdq : (0 : ℚ) < (D : ℚ) := by exact_mod_cast hd
  have hmod := Nat.div_add_mod q D
  have hlt : q % D < D := Nat.mod_lt _ hd
  have hsplit : ((q : ℕ) : ℚ) / (D : ℚ) = ((q / D : ℕ) : ℚ) + ((q % D : ℕ) : ℚ) / (D : ℚ) := by
    field_simp
    exact_mod_cast (Nat.div_add_mod' q D).symm
  have hr0 : (0 : ℚ) ≤ ((q % D : ℕ) : ℚ) / (D : ℚ) := by positivity
  have hr1 : ((q % D : ℕ) : ℚ) / (D : ℚ) < 1 := by
    rw [div_lt_one hdq]
    exact_mod_cast hlt
  rw [hsplit]
  split_ifs with h1 h2 h3
  · have hhalf : ((q % D : ℕ) : ℚ) / (D : ℚ) ≤ 1 / 2 := by
      rw [div_le_div_iff₀ hdq (by norm_num : (0:ℚ) < 2)]
      exact_mod_cast Nat.le_of_lt_succ (by omega)
    rw [abs_le]
    constructor <;> linarith
  · have hhalf : (1 : ℚ) / 2 ≤ ((q % D : ℕ) : ℚ) / (D : ℚ) := by
      rw [div_le_div_iff₀ (by norm_num : (0:ℚ) < 2) hdq]
      exact_mod_cast (by omega : 1 * D ≤ q % D * 2)
    push_cast
    rw [abs_le]
    constructor <;> linarith
  · have heq : ((q % D : ℕ) : ℚ) / (D : ℚ) = 1 / 2 := by
      rw [div_eq_div_iff hdq.ne' (by norm_num : (2:ℚ) ≠ 0)]
      exact_mod_cast (by omega : (q % D) * 2 = 1 * D)
    rw [heq, abs_le]
    constructor <;> linarith
  · have heq : ((q % D : ℕ) : ℚ) / (D : ℚ) = 1 / 2 := by
      rw [div_eq_div_iff hdq.ne' (by norm_num : (2:ℚ) ≠ 0)]
      exact_mod_cast (by omega : (q % D) * 2 = 1 * D)
    push_cast
    rw [heq, abs_le]
    constructor <;> linarith

theorem unitIndex_lower (n : ℕ) : unitIndex n = 0 ∨ 1024 ^ unitIndex n ≤ n := by
  rw [unitIndex_eq]
  split_ifs <;> norm_num <;> omega

theorem unitIndex_upper (n : ℕ) : n < 1024 ^ (unitIndex n + 1) ∨ unitIndex n = 4 := by
  rw [unitIndex_eq]
  split_ifs <;> norm_num <;> omega

/-- `f"{size:.2f}"` renders exactly two decimal digits. -/
theorem pad2_length (m : ℕ) (hm : m < 100) : (pad2 m).length = 2 := by
  interval_cases m <;> decide

/-! ## Claim theorems -/

/-- C5: for every non-negative byte count, `formatSize` selects the
largest unit among B, KB, MB, GB, TB such that the value scaled by binary
multiples is below 1024 (keeping TB even when the scaled value is still at
least 1024): the chosen index `k = unitIndex n` satisfies `k ≤ 4`, the
scaled value is exactly `n / 1024 ^ k`, `n < 1024 ^ (k + 1)` unless
`k = 4`, and `1024 ^ k ≤ n` unless `k = 0` (so no smaller unit would have
scaled below 1024).  The scaled value is rendered with no decimal places
when it is a whole number (`den = 1`) and otherwise with exactly two
decimal digits, showing the correctly rounded scaled value (within half a
unit of the second decimal place).  In particular
`formatSize 1048576 = "1 MB"`, `formatSize 1500000 = "1.43 MB"`,
`formatSize 500 = "500 B"`. -/
theorem claim_C5 (n : ℕ) :
    scaledVal n * (1024 : ℚ) ^ unitIndex n = n ∧
    unitIndex n ≤ 4 ∧
    (unitIndex n = 0 ∨ 1024 ^ unitIndex n ≤ n) ∧
    (n < 1024 ^ (unitIndex n + 1) ∨ unitIndex n = 4) ∧
    ((scaledVal n).den = 1 →
      format_size n = toString (scaledVal n).num ++ " " ++ unitName (unitIndex n)) ∧
    ((scaledVal n).den ≠ 1 →
      format_size n =
        toString (rhe2 n (unitIndex n) / 100) ++ "." ++
          pad2 (rhe2 n (unitIndex n) % 100) ++ " " ++ unitName (unitIndex n) ∧
      (pad2 (rhe2 n (unitIndex n) % 100)).length = 2 ∧
      |(rhe2 n (unitIndex n) : ℚ) / 100 - scaledVal n| ≤ 1 / 200) ∧
    format_size 1048576 = "1 MB" ∧
    format_size 1500000 = "1.43 MB" ∧
    format_size 500 = "500 B" := by
  refine ⟨scaledVal_mul_pow n, unitIndex_le_four n, unitIndex_lower n, unitIndex_upper n,
    ?_, ?_, by decide, by decide, by decide⟩
  · intro hden
    have hdvd : 1024 ^ unitIndex n ∣ n := (scaledVal_den_eq_one_iff n).mp hden
    rw [scaledVal_num_of_dvd n hdvd]
    rw [show toString ((n / 1024 ^ unitIndex n : ℕ) : ℤ) = toString (n / 1024 ^ unitIndex n)
      from rfl]
    simp [format_size, hdvd]
  · intro hden
    have hdvd : ¬ 1024 ^ unitIndex n ∣ n := fun h => hden ((scaledVal_den_eq_one_iff n).mpr h)
    refine ⟨by simp [format_size, hdvd], pad2_length _ (Nat.mod_lt _ (by norm_num)), ?_⟩
    have happrox := rhe2_approx n (unitIndex n)
    have hval : ((100 * n : ℕ) : ℚ) / ((1024 ^ unitIndex n : ℕ) : ℚ) = 100 * scaledVal n := by
      unfold scaledVal
      push_cast
      ring
    rw [hval] at happrox
    have hrw : (rhe2 n (unitIndex n) : ℚ) / 100 - scaledVal n
        = ((rhe2 n (unitIndex n) : ℚ) - 100 * scaledVal n) / 100 := by
      ring
    rw [hrw, abs_div]
    rw [show |(100 : ℚ)| = 100 by norm_num]
    rw [div_le_iff₀ (by norm_num : (0:ℚ) < 100)]
    linarith

/-- Witness for C5: the two rendering hypotheses discharged at concrete
inputs (500 is rendered whole, 1500000 with two decimals). -/
theorem claim_C5_witness :
    format_size 500 = toString (scaledVal 500).num ++ " " ++ unitName (unitIndex 500) ∧
    format_size 1500000 =
      toString (rhe2 1500000 (unitIndex 1500000) / 100) ++ "." ++
        pad2 (rhe2 1500000 (unitIndex 1500000) % 100) ++ " " ++
        unitName (unitIndex 1500000) := by
  constructor
  · exact (claim_C5 500).2.2.2.2.1
      ((scaledVal_den_eq_one_iff 500).mpr (by rw [unitIndex_eq]; norm_num))
  · exact ((claim_C5 1500000).2.2.2.2.2.1
      (fun h => by
        have := (scaledVal_den_eq_one_iff 1500000).mp h
        rw [unitIndex_eq] at this
        norm_num at this)).1

/-- The rendered value of `format_size n` recovers `n` exactly whenever
the scaled value needs at most two decimal places. -/
theorem format_value_eq_self (n : ℕ) (hden : (100 * scaledVal n).den = 1) :
    format_value n = (n : ℚ) := by
  have hdvd100 : 1024 ^ unitIndex n ∣ 100 * n :=
    (hundred_scaledVal_den_eq_one_iff n).mp hden
  by_cases hdvd : 1024 ^ unitIndex n ∣ n
  · simp only [format_value, if_pos hdvd]
    rw [Rat.natCast_div _ _ hdvd]
    push_cast
    rw [div_mul_cancel₀]
    positivity
  · simp only [format_value, if_neg hdvd]
    rw [rhe2_of_dvd n (unitIndex n) hdvd100, Rat.natCast_div _ _ hdvd100]
    push_cast
    have hpos : ((1024 : ℚ) ^ unitIndex n) ≠ 0 := by positivity
    field_simp
    ring

/-- C2 (amended): for every valid size string `s`, the numeric value of
`formatSize(parseSize(s))` (the rendered number times the binary multiple
of the rendered unit, `format_value`) equals the parsed byte count — the
byte count implied by `s` — whenever that byte count, scaled into the
chosen unit, is exactly representable with at most two decimal places
(`(100 · scaledVal).den = 1`).  In general the rendering is only the
two-decimal rounding of the scaled value, so the round trip need not
preserve the numeric value (see `claim_C2_counterexample`). -/
theorem claim_C2 (s : String) (m : ℕ) (hp : parse_size s = .ok (m : ℤ))
    (hden : (100 * scaledVal m).den = 1) : format_value m = (m : ℚ) := by
  have hused : parse_size s = .ok (m : ℤ) := hp
  exact format_value_eq_self m hden

/-- Witness for C2 at `s = "100MB"`, byte count 104857600. -/
theorem claim_C2_witness :
    parse_size "100MB" = .ok ((104857600 : ℕ) : ℤ) ∧
    format_value 104857600 = ((104857600 : ℕ) : ℚ) := by
  have hden : (100 * scaledVal 104857600).den = 1 := by
    rw [hundred_scaledVal_den_eq_one_iff, unitIndex_eq]
    norm_num
  exact ⟨by decide, claim_C2 "100MB" 104857600 (by decide) hden⟩

/-- Counterexample to C2 as stated: `"1500000"` is a valid size string
(a pure integer string), `parseSize` returns 1500000, but the formatted
text is `"1.43 MB"`, whose numeric value `1.43 * 1024 ^ 2 = 1499463.68`
differs from 1500000. -/
theorem claim_C2_counterexample :
    parse_size "1500000" = .ok 1500000 ∧
    format_size 1500000 = "1.43 MB" ∧
    format_value 1500000 ≠ (1500000 : ℚ) := by
  refine ⟨by decide, by decide, ?_⟩
  have hui : unitIndex 1500000 = 2 := by
    rw [unitIndex_eq]
    norm_num
  have hdvd : ¬ 1024 ^ unitIndex 1500000 ∣ 1500000 := by
    rw [hui]
    norm_num
  have hr : rhe2 1500000 2 = 143 := by decide
  simp only [format_value, if_neg hdvd, hui, hr]
  norm_num

/-! ### Character-class facts used by the `parse_size` claims -/

theorem alpha_not_digit (c : Char) (h : c.isAlpha = true) : c.isDigit = false := by
  simp [Char.isAlpha, Char.isUpper, Char.isLower, Char.isDigit, UInt32.le_def] at *
  bv_omega

theorem alpha_not_numChar (c : Char) (h : c.isAlpha = true) : isNumChar c = false := by
  have hdot : (c == '.') = false := by
    simp only [beq_eq_false_iff_ne]
    rintro rfl
    simp [Char.isAlpha, Char.isUpper, Char.isLower] at h
  simp [isNumChar, alpha_not_digit c h, hdot]

theorem numChar_not_alpha (c : Char) (h : isNumChar c = true) : c.isAlpha = false := by
  simp only [isNumChar, Bool.or_eq_true, beq_iff_eq] at h
  rcases h with h | rfl
  · simp [Char.isAlpha, Char.isUpper, Char.isLower, Char.isDigit, UInt32.le_def] at *
    bv_omega
  · decide

/-- Appending an all-alphabetic suffix leaves the numeric filter alone and
the numeric prefix contributes nothing to the unit filter. -/
theorem filters_append (ns us : String)
    (hn : ns.data.all isNumChar = true) (hu : us.data.all Char.isAlpha = true) :
    numFilter (ns ++ us) = ns ∧ upperAlpha (ns ++ us) = upperAlpha us := by
  simp only [List.all_eq_true] at hn hu
  constructor
  · show String.mk ((ns ++ us).data.filter isNumChar) = ns
    rw [String.data_append, List.filter_append,
      List.filter_eq_self.mpr hn,
      List.filter_eq_nil_iff.mpr (fun c hc => by simp [alpha_not_numChar c (hu c hc)]),
      List.append_nil]
  · show String.mk (((ns ++ us).data.filter Char.isAlpha).map Char.toUpper)
      = String.mk ((us.data.filter Char.isAlpha).map Char.toUpper)
    rw [String.data_append, List.filter_append,
      List.filter_eq_nil_iff.mpr (fun c hc => by simp [numChar_not_alpha c (hn c hc)]),
      List.nil_append]

/-- A string that ends in a non-empty alphabetic suffix is not a pure
digit string. -/
theorem isDigitsStr_append_alpha (ns us : String)
    (hu : us.data.all Char.isAlpha = true) (hne : us.data ≠ []) :
    isDigitsStr (ns ++ us) = false := by
  simp only [List.all_eq_true] at hu
  obtain ⟨c, hc⟩ := List.exists_mem_of_ne_nil us.data hne
  simp only [isDigitsStr, Bool.and_eq_false_iff]
  right
  exact List.all_eq_false.mpr
    ⟨c, by simp [String.data_append, hc], by simp [alpha_not_digit c (hu c hc)]⟩

/-- The recognized unit suffixes of `parse_size` with their binary
multipliers. -/
def parseUnits : List (String × ℕ) :=
  [("KB", 1024), ("MB", 1024 * 1024), ("GB", 1024 * 1024 * 1024),
    ("TB", 1024 * 1024 * 1024 * 1024)]

/-- Reduction of the unit if-chain of `parse_size` for a recognized unit. -/
theorem parse_size_of_parts (s : String) (m e mult : ℕ)
    (hds : isDigitsStr s = false)
    (hnum : decimalScaled (numFilter s) = some (m, e))
    (hunit : (upperAlpha s, mult) ∈ parseUnits) :
    parse_size s = .ok ((m * mult / 10 ^ e : ℕ) : ℤ) := by
  simp only [parseUnits, List.mem_cons, List.not_mem_nil, or_false, Prod.mk.injEq] at hunit
  rcases hunit with ⟨hu, hm⟩ | ⟨hu, hm⟩ | ⟨hu, hm⟩ | ⟨hu, hm⟩ <;>
    subst hm <;>
    simp [parse_size, hds, hnum, hu]

/-- A rational with denominator 1 floors to its numerator. -/
theorem floor_eq_num_of_den_eq_one (x : ℚ) (h : x.den = 1) : ⌊x⌋ = x.num := by
  have hx := (Rat.den_eq_one_iff x).mp h
  conv_lhs => rw [← hx]
  rw [Int.floor_intCast]

/-- C3: `parseSize` maps a pure integer string to that integer as a byte
count, and a decimal number followed by a case-insensitive suffix among
KB, MB, GB, TB to the number times the binary multiple `1024 ^ k`
(`k = 1..4`, truncated to an integer by `int(...)`; exact whenever the
product is a whole number).  In particular
`parseSize "100MB" = 104857600`, `parseSize "1.5GB" = 1610612736`, and
`parseSize "512" = 512`. -/
theorem claim_C3 :
    (∀ s : String, isDigitsStr s = true → parse_size s = .ok (digitsVal s.data : ℤ)) ∧
    (∀ (ns us : String) (q : ℚ) (mult : ℕ),
      ns.data.all isNumChar = true →
      us.data.all Char.isAlpha = true →
      decimalValue ns = some q →
      (upperAlpha us, mult) ∈ parseUnits →
      parse_size (ns ++ us) = .ok ⌊q * (mult : ℚ)⌋ ∧
      ((q * (mult : ℚ)).den = 1 → parse_size (ns ++ us) = .ok (q * (mult : ℚ)).num)) ∧
    parse_size "100MB" = .ok 104857600 ∧
    parse_size "1.5GB" = .ok 1610612736 ∧
    parse_size "512" = .ok 512 := by
  refine ⟨?_, ?_, by decide, by decide, by decide⟩
  · intro s h
    simp [parse_size, h]
  · intro ns us q mult hn hu hq hmem
    obtain ⟨m, e, hms, hqq⟩ :
        ∃ m e, decimalScaled ns = some (m, e) ∧ q = (m : ℚ) / (10 : ℚ) ^ e := by
      unfold decimalValue at hq
      cases hds : decimalScaled ns with
      | none => rw [hds] at hq; simp at hq
      | some p =>
        rw [hds] at hq
        simp at hq
        exact ⟨p.1, p.2, rfl, hq.symm⟩
    have hne : us.data ≠ [] := by
      intro h0
      have hempty : upperAlpha us = "" := by
        unfold upperAlpha
        rw [h0]
        rfl
      rw [hempty] at hmem
      simp [parseUnits] at hmem
    have hds2 : isDigitsStr (ns ++ us) = false := isDigitsStr_append_alpha ns us hu hne
    obtain ⟨hfn, hfa⟩ := filters_append ns us hn hu
    have hps := parse_size_of_parts (ns ++ us) m e mult hds2
      (by rw [hfn]; exact hms) (by rw [hfa]; exact hmem)
    constructor
    · rw [hps, parse_size_scale_eq_floor, hqq]
    · intro hden
      rw [hps, parse_size_scale_eq_floor, ← hqq]
      rw [floor_eq_num_of_den_eq_one _ hden]

/-- Witness for C3: the hypotheses discharged at `"1.5" ++ "GB"` and at
the pure integer string `"512"`. -/
theorem claim_C3_witness :
    parse_size ("1.5" ++ "GB") = .ok ⌊(3 / 2 : ℚ) * ((1024 * 1024 * 1024 : ℕ) : ℚ)⌋ ∧
    parse_size "512" = .ok (digitsVal "512".data : ℤ) := by
  have hdv : decimalValue "1.5" = some (3 / 2 : ℚ) := by
    have hsc : decimalScaled "1.5" = some (15, 1) := by decide
    rw [decimalValue, hsc]
    norm_num
  exact ⟨((claim_C3.2.1 "1.5" "GB" (3 / 2) (1024 * 1024 * 1024)
      (by decide) (by decide) hdv (by decide)).1),
    claim_C3.1 "512" (by decide)⟩

/-- The unit suffixes `parse_size` recognizes. -/
def recognizedUnits : List String := ["KB", "MB", "GB", "TB"]

/-- C4: `parseSize` fails with the invalid-format error for every input
whose text contains no digits, whose (uppercased) unit suffix is not
among KB, MB, GB, TB, or whose collected numeric part does not parse as a
decimal number; in particular `parseSize "100XB"` fails.  An input that is
not a pure digit string and whose suffix is unrecognized always errors —
it is never silently interpreted as plain bytes. -/
theorem claim_C4 :
    (∀ s : String, s.data.all (fun c => !c.isDigit) = true →
      parse_size s = .error .invalidFormat) ∧
    (∀ s : String, isDigitsStr s = false → upperAlpha s ∉ recognizedUnits →
      parse_size s = .error .invalidFormat) ∧
    (∀ s : String, isDigitsStr s = false → decimalScaled (numFilter s) = none →
      parse_size s = .error .invalidFormat) ∧
    parse_size "100XB" = .error .invalidFormat := by
  have unitCase : ∀ s : String, isDigitsStr s = false → upperAlpha s ∉ recognizedUnits →
      parse_size s = .error .invalidFormat := by
    intro s h1 h2
    simp only [recognizedUnits, List.mem_cons, List.not_mem_nil, or_false, not_or] at h2
    obtain ⟨hkb, hmb, hgb, htb⟩ := h2
    cases hds : decimalScaled (numFilter s) with
    | none => simp [parse_size, h1, hds]
    | some p => simp [parse_size, h1, hds, hkb, hmb, hgb, htb]
  refine ⟨?_, unitCase, ?_, by decide⟩
  · intro s h
    simp only [List.all_eq_true, Bool.not_eq_true'] at h
    have h1 : isDigitsStr s = false := by
      cases hsd : s.data with
      | nil => simp [isDigitsStr, hsd]
      | cons c cs =>
        simp only [isDigitsStr, Bool.and_eq_false_iff]
        right
        exact List.all_eq_false.mpr
          ⟨c, by rw [hsd]; exact List.mem_cons_self c cs,
            by simp [h c (by rw [hsd]; exact List.mem_cons_self c cs)]⟩
    have h2 : decimalScaled (numFilter s) = none := by
      have hany : (numFilter s).data.any Char.isDigit = false := by
        rw [List.any_eq_false]
        intro c hc
        have hcs : c ∈ s.data := List.mem_of_mem_filter hc
        simp [h c hcs]
      simp [decimalScaled, hany]
    simp [parse_size, h1, h2]
  · intro s h1 h2
    simp [parse_size, h1, h2]

/-- Witness for C4: each failure mode discharged at a concrete input
(`"XB"` has no digits, `"100XB"` has an unrecognized suffix, `"1.2.3KB"`
has an unparseable numeric part). -/
theorem claim_C4_witness :
    parse_size "XB" = .error .invalidFormat ∧
    parse_size "100XB" = .error .invalidFormat ∧
    parse_size "1.2.3KB" = .error .invalidFormat := by
  exact ⟨claim_C4.1 "XB" (by decide),
    claim_C4.2.1 "100XB" (by decide) (by decide),
    claim_C4.2.2.1 "1.2.3KB" (by decide) (by decide)⟩

/-- C10 (implicit): `parse_size` is insensitive to character order and
interleaving — any two inputs that are not pure digit strings and agree
on their digit/dot characters (in order) and on their alphabetic
characters (in order) parse identically; and any non-digit-string input
whose collected numeric part parses as `m / 10 ^ e` and whose collected
uppercased alphabetic characters form a recognized unit with multiplier
`mult` is accepted with value `int((m / 10 ^ e) * mult)`.  In particular
`parse_size "MB100" = 104857600` and `parse_size "1M0B" = 10485760`. -/
theorem claim_C10 :
    (∀ s t : String, isDigitsStr s = false → isDigitsStr t = false →
      numFilter s = numFilter t → upperAlpha s = upperAlpha t →
      parse_size s = parse_size t) ∧
    (∀ (s : String) (m e mult : ℕ), isDigitsStr s = false →
      decimalScaled (numFilter s) = some (m, e) →
      (upperAlpha s, mult) ∈ parseUnits →
      parse_size s = .ok ⌊((m : ℚ) / (10 : ℚ) ^ e) * (mult : ℚ)⌋) ∧
    parse_size "MB100" = .ok 104857600 ∧
    parse_size "1M0B" = .ok 10485760 := by
  refine ⟨?_, ?_, by decide, by decide⟩
  · intro s t hs ht hnum halpha
    simp only [parse_size, hs, ht, Bool.false_eq_true, if_false, hnum, halpha]
  · intro s m e mult hds hnum hmem
    rw [parse_size_of_parts s m e mult hds hnum hmem, parse_size_scale_eq_floor]

/-- Witness for C10: order-insensitivity applied to `"MB100"` vs
`"100MB"`, and the general acceptance shape applied to `"1M0B"`. -/
theorem claim_C10_witness :
    parse_size "MB100" = parse_size "100MB" ∧
    parse_size "1M0B" = .ok ⌊((10 : ℚ) / (10 : ℚ) ^ 0) * ((1024 * 1024 : ℕ) : ℚ)⌋ := by
  exact ⟨claim_C10.1 "MB100" "100MB" (by decide) (by decide) (by decide) (by decide),
    claim_C10.2.1 "1M0B" 10 0 (1024 * 1024) (by decide) (by decide) (by decide)⟩

/-! ### Directory Sizer claims -/

mutual

/-- On a fully accessible tree, the walk total is the spec's sum over all
regular files. -/
theorem walkTotal_eq_sumRegular (t : FSNode) (ht : allOk t = true) (hd : ∃ r cs, t = .dir r cs) :
    walkTotal t = sumRegular t := by
  obtain ⟨r, cs, rfl⟩ := hd
  have hr : r = true := by
    cases r
    · simp [allOk] at ht
    · rfl
  subst hr
  have hcs : allOkList cs = true := by
    simp [allOk] at ht
    exact ht
  show walkChildren cs = sumRegularList cs
  exact walkChildren_eq_sumRegularList cs hcs

/-- List version of `walkTotal_eq_sumRegular`. -/
theorem walkChildren_eq_sumRegularList (cs : List FSNode) (h : allOkList cs = true) :
    walkChildren cs = sumRegularList cs := by
  match cs with
  | [] => rfl
  | .file none :: rest => simp [allOkList, allOk] at h
  | .file (some sz) :: rest =>
    have hrest : allOkList rest = true := by
      simp [allOkList, allOk] at h
      exact h
    show sz + walkChildren rest = sz + sumRegularList rest
    rw [walkChildren_eq_sumRegularList rest hrest]
  | .symlink sz :: rest =>
    have hrest : allOkList rest = true := by
      simp [allOkList, allOk] at h
      exact h
    show walkChildren rest = 0 + sumRegularList rest
    rw [walkChildren_eq_sumRegularList rest hrest, Nat.zero_add]
  | .dir r cs' :: rest =>
    simp only [allOkList, allOk, Bool.and_eq_true] at h
    obtain ⟨⟨hr, hcs'⟩, hrest⟩ := h
    show walkTotal (.dir r cs') + walkChildren rest
      = sumRegularList cs' + sumRegularList rest
    rw [walkTotal_eq_sumRegular (.dir r cs') (by simp [allOk, hr, hcs']) ⟨r, cs', rfl⟩,
      walkChildren_eq_sumRegularList rest hrest]
    subst hr
    rfl

end

/-- The example tree of C6: regular files of sizes 10, 20 and 30 bytes
(one in a subdirectory) and one symbolic link to a 1000-byte file. -/
def exampleTree : FSNode :=
  .dir true [.file (some 10), .file (some 20),
    .dir true [.file (some 30), .symlink 1000]]

/-- C6: on a tree whose directories are all readable and whose files all
stat successfully, `directorySize` returns the sum of the sizes of every
regular file in every subdirectory under the root (the root included),
with every symbolic link excluded from the total entirely; for the tree
with files {10, 20, 30} and a symlink to a 1000-byte file it returns
exactly 60. -/
theorem claim_C6 :
    (∀ children : List FSNode, allOkList children = true →
      get_directory_size (some (.dir true children))
        = .ok (sumRegular (.dir true children))) ∧
    get_directory_size (some exampleTree) = .ok 60 := by
  constructor
  · intro children h
    show Except.ok (walkTotal (.dir true children)) = _
    rw [walkTotal_eq_sumRegular (.dir true children) (by simpa [allOk] using h)
      ⟨true, children, rfl⟩]
  · decide

/-- Witness for C6: the accessibility hypothesis discharged on the
example tree. -/
theorem claim_C6_witness :
    get_directory_size (some exampleTree)
      = .ok (sumRegular (.dir true [.file (some 10), .file (some 20),
          .dir true [.file (some 30), .symlink 1000]])) := by
  exact claim_C6.1 _ (by decide)

/-- Dropping a file whose `getsize` fails leaves the walk total of the
surrounding directory unchanged: the failure is contained to that file
and the traversal continues. -/
theorem walkChildren_skip_failed (xs ys : List FSNode) :
    walkChildren (xs ++ .file none :: ys) = walkChildren (xs ++ ys) := by
  induction xs with
  | nil => rfl
  | cons x xs ih =>
    cases x with
    | file o =>
      cases o with
      | none =>
        show walkChildren (xs ++ .file none :: ys) = walkChildren (xs ++ ys)
        exact ih
      | some sz =>
        show sz + walkChildren (xs ++ .file none :: ys) = sz + walkChildren (xs ++ ys)
        rw [ih]
    | symlink sz =>
      show walkChildren (xs ++ .file none :: ys) = walkChildren (xs ++ ys)
      exact ih
    | dir r cs =>
      show walkTotal (.dir r cs) + walkChildren (xs ++ .file none :: ys)
        = walkTotal (.dir r cs) + walkChildren (xs ++ ys)
      rw [ih]

/-- C1 (amended): per-file stat failures are logged, contribute zero and
never stop the traversal; but `directorySize` never fails at all — for a
root whose traversal cannot proceed it still returns a total.  `os.walk`
is invoked with its default `onerror=None`, which swallows the `scandir`
error of a missing or unreadable root, so the walk yields nothing, the
`except`/`raise` branch is unreachable, and the function returns 0
(the sum over the files actually reached) instead of raising the spec's
`DirectoryAccessError`. -/
theorem claim_C1 :
    (∀ root : Option FSNode, ∃ total : ℕ, get_directory_size root = .ok total) ∧
    (∀ xs ys : List FSNode,
      get_directory_size (some (.dir true (xs ++ .file none :: ys)))
        = get_directory_size (some (.dir true (xs ++ ys)))) ∧
    get_directory_size none = .ok 0 ∧
    (∀ children : List FSNode, get_directory_size (some (.dir false children)) = .ok 0) := by
  refine ⟨?_, ?_, rfl, fun _ => rfl⟩
  · intro root
    cases root with
    | none => exact ⟨0, rfl⟩
    | some t => exact ⟨walkTotal t, rfl⟩
  · intro xs ys
    show Except.ok (walkChildren (xs ++ .file none :: ys))
      = Except.ok (walkChildren (xs ++ ys))
    rw [walkChildren_skip_failed]

/-- Counterexample to C1 as stated: for a root path that does not exist
(and likewise for an unreadable root directory), `directorySize` does not
fail with `DirectoryAccessError`; it returns the total 0. -/
theorem claim_C1_counterexample :
    get_directory_size none = .ok 0 ∧
    get_directory_size (some (.dir false [.file (some 5)])) = .ok 0 ∧
    (∀ e : DirError, get_directory_size none ≠ .error e) := by
  exact ⟨rfl, rfl, fun e h => by simp [get_directory_size] at h⟩

/-! ### Threshold Evaluator claims -/

/-- C7: the alert condition is strict inequality.  Given a check whose
path exists, whose directory sizing returns `s` and whose threshold
parses to `t`: an alert (with exactly the observed size and threshold) is
produced iff `t < s`; equality produces no alert; and one byte over the
threshold produces exactly one alert whose exceeded-by amount
(`size - threshold`, as rendered by `send_alerts`) equals 1. -/
theorem claim_C7 (fs : FileSystem) (d : DirCheck) (node : FSNode) (s : ℕ) (t : ℤ)
    (hfs : fs d.path = some node)
    (hsize : get_directory_size (some node) = .ok s)
    (hthr : parse_size d.threshold = .ok t) :
    (checkOne fs d = if t < (s : ℤ) then some ⟨d.name, d.path, (s : ℤ), t⟩ else none) ∧
    ((s : ℤ) = t → checkOne fs d = none) ∧
    ((s : ℤ) = t + 1 →
      check_directories fs [d] = [⟨d.name, d.path, (s : ℤ), t⟩] ∧
      exceededBy ⟨d.name, d.path, (s : ℤ), t⟩ = 1) := by
  have hone : checkOne fs d
      = if t < (s : ℤ) then some ⟨d.name, d.path, (s : ℤ), t⟩ else none := by
    simp only [checkOne, hfs, hsize, hthr]
  refine ⟨hone, ?_, ?_⟩
  · intro heq
    rw [hone, if_neg (by omega)]
  · intro heq
    constructor
    · show List.filterMap (checkOne fs) [d] = _
      rw [List.filterMap_cons, hone, if_pos (by omega)]
      rfl
    · show (s : ℤ) - t = 1
      omega

/-- Witness for C7: a 11-byte tree against a 10-byte threshold (one over:
one alert, exceeded by 1) and an 11-byte tree against an 11-byte
threshold (equal: no alert). -/
theorem claim_C7_witness :
    check_directories (fun _ => some (.dir true [.file (some 11)]))
        [⟨"data", "/data", "10"⟩]
      = [⟨"data", "/data", (11 : ℤ), (10 : ℤ)⟩] ∧
    exceededBy ⟨"data", "/data", (11 : ℤ), (10 : ℤ)⟩ = 1 ∧
    checkOne (fun _ => some (.dir true [.file (some 11)])) ⟨"data", "/data", "11"⟩
      = none := by
  refine ⟨?_, ?_, ?_⟩
  · exact ((claim_C7 (fun _ => some (.dir true [.file (some 11)]))
      ⟨"data", "/data", "10"⟩ (.dir true [.file (some 11)]) 11 10
      rfl (by decide) (by decide)).2.2 (by decide)).1
  · exact ((claim_C7 (fun _ => some (.dir true [.file (some 11)]))
      ⟨"data", "/data", "10"⟩ (.dir true [.file (some 11)]) 11 10
      rfl (by decide) (by decide)).2.2 (by decide)).2
  · exact (claim_C7 (fun _ => some (.dir true [.file (some 11)]))
      ⟨"data", "/data", "11"⟩ (.dir true [.file (some 11)]) 11 11
      rfl (by decide) (by decide)).2.1 (by decide)

/-- C8: an error raised while evaluating one directory check is contained
to that check: a check whose threshold fails to parse (the only fallible
step, since sizing always returns — see C1) contributes nothing, and the
remaining checks are evaluated exactly as if the bad check were absent,
in configured order.  One bad directory never aborts the run. -/
theorem claim_C8 (fs : FileSystem) (xs ys : List DirCheck) (d : DirCheck)
    (hbad : parse_size d.threshold = .error .invalidFormat) :
    check_directories fs (xs ++ d :: ys) = check_directories fs (xs ++ ys) ∧
    check_directories fs (xs ++ d :: ys)
      = check_directories fs xs ++ check_directories fs ys := by
  have hnone : checkOne fs d = none := by
    unfold checkOne
    cases hfs : fs d.path with
    | none => rfl
    | some node => simp [get_directory_size, hbad]
  constructor
  · simp [check_directories, List.filterMap_append, List.filterMap_cons, hnone]
  · simp [check_directories, List.filterMap_append, List.filterMap_cons, hnone]

/-- Witness for C8: a run over three checks whose middle threshold
`"10XB"` fails to parse behaves as the run without it. -/
theorem claim_C8_witness :
    check_directories (fun _ => some (.dir true [.file (some 11)]))
        ([⟨"a", "/a", "10"⟩] ++ ⟨"b", "/b", "10XB"⟩ :: [⟨"c", "/c", "5"⟩])
      = check_directories (fun _ => some (.dir true [.file (some 11)]))
          ([⟨"a", "/a", "10"⟩] ++ [⟨"c", "/c", "5"⟩]) := by
  exact (claim_C8 (fun _ => some (.dir true [.file (some 11)]))
    [⟨"a", "/a", "10"⟩] [⟨"c", "/c", "5"⟩] ⟨"b", "/b", "10XB"⟩ (by decide)).1

/-! ### Configuration Loader / Entry Point claims -/

/-- If `collectDirs` succeeds, every directory section provided both
`path` and `threshold`. -/
theorem collectDirs_ok_all (secs : List IniSection) (ds : List DirCheck)
    (h : collectDirs secs = .ok ds) :
    secs.all (fun s => !s.1.startsWith "directory:" ||
      ((lookupKey s.2 "path").isSome && (lookupKey s.2 "threshold").isSome)) = true := by
  induction secs generalizing ds with
  | nil => rfl
  | cons sec rest ih =>
    obtain ⟨name, opts⟩ := sec
    rw [List.all_cons]
    by_cases hd : name.startsWith "directory:"
    · rw [collectDirs] at h
      rw [if_pos hd] at h
      cases hp : lookupKey opts "path" with
      | none => rw [hp] at h; exact absurd h (by simp)
      | some path =>
        rw [hp] at h
        cases ht : lookupKey opts "threshold" with
        | none => rw [ht] at h; exact absurd h (by simp)
        | some thr =>
          rw [ht] at h
          cases hrest : collectDirs rest with
          | error e => rw [hrest] at h; exact absurd h (by simp [Except.map])
          | ok ds' =>
            simp only [hd, hp, ht, Option.isSome_some, Bool.and_self, Bool.or_true,
              Bool.true_and]
            exact ih ds' hrest
    · rw [collectDirs, if_neg hd] at h
      simp only [hd, Bool.not_false, Bool.true_or, Bool.true_and]
      exact ih ds h

/-- If `load_config` succeeds, the source provided every required section
and option. -/
theorem load_config_ok_requiredOk (secs : List IniSection) (cfg : AppConfig)
    (h : load_config (.ok secs) = .ok cfg) : requiredOk secs = true := by
  rw [load_config] at h
  cases hdirs : collectDirs secs with
  | error e => simp only [hdirs] at h; exact Except.noConfusion h
  | ok dirs =>
  simp only [hdirs] at h
  cases hemail : findSection secs "email" with
  | error e => simp only [hemail] at h; exact Except.noConfusion h
  | ok emailOpts =>
  simp only [hemail] at h
  cases hrec : getKey emailOpts "recipients" with
  | error e => simp only [hrec] at h; exact Except.noConfusion h
  | ok recipientsRaw =>
  simp only [hrec] at h
  cases hsmtp : findSection secs "smtp" with
  | error e => simp only [hsmtp] at h; exact Except.noConfusion h
  | ok smtpOpts =>
  simp only [hsmtp] at h
  cases hhost : getKey smtpOpts "host" with
  | error e => simp only [hhost] at h; exact Except.noConfusion h
  | ok host =>
  simp only [hhost] at h
  cases hport : getKey smtpOpts "port" with
  | error e => simp only [hport] at h; exact Except.noConfusion h
  | ok port =>
  simp only [hport] at h
  cases huser : getKey smtpOpts "username" with
  | error e => simp only [huser] at h; exact Except.noConfusion h
  | ok username =>
  simp only [huser] at h
  cases hpass : getKey smtpOpts "password" with
  | error e => simp only [hpass] at h; exact Except.noConfusion h
  | ok password =>
  have hfindEmail : ∃ s, secs.find? (fun s => s.1 == "email") = some s ∧ s.2 = emailOpts := by
    unfold findSection at hemail
    cases hf : secs.find? (fun s => s.1 == "email") with
    | none => rw [hf] at hemail; exact absurd hemail (by simp)
    | some s =>
      rw [hf] at hemail
      exact ⟨s, rfl, by injection hemail⟩
  have hfindSmtp : ∃ s, secs.find? (fun s => s.1 == "smtp") = some s ∧ s.2 = smtpOpts := by
    unfold findSection at hsmtp
    cases hf : secs.find? (fun s => s.1 == "smtp") with
    | none => rw [hf] at hsmtp; exact absurd hsmtp (by simp)
    | some s =>
      rw [hf] at hsmtp
      exact ⟨s, rfl, by injection hsmtp⟩
  have hkey : ∀ (opts : List (String × String)) (k v : String),
      getKey opts k = .ok v → (lookupKey opts k).isSome = true := by
    intro opts k v hk
    unfold getKey at hk
    cases hl : lookupKey opts k with
    | none => rw [hl] at hk; exact absurd hk (by simp)
    | some w => simp
  unfold requiredOk
  rw [collectDirs_ok_all secs dirs hdirs]
  obtain ⟨se, hse, hse2⟩ := hfindSmtp
  obtain ⟨ee, hee, hee2⟩ := hfindEmail
  simp only [hee, hse]
  rw [hee2, hse2]
  simp [hkey emailOpts "recipients" recipientsRaw hrec,
    hkey smtpOpts "host" host hhost, hkey smtpOpts "port" port hport,
    hkey smtpOpts "username" username huser, hkey smtpOpts "password" password hpass]

/-- C9: configuration loading fails (with the spec's `ConfigurationError`)
for every source that is unreadable or malformed (a read failure) and for
every source missing a required section or option; whenever it fails the
process exits with status 1 having evaluated no directory check — it
never proceeds with a partial configuration. -/
theorem claim_C9 :
    (∀ (src : Except Unit (List IniSection)) (fs : FileSystem) (e : ConfigError),
      load_config src = .error e → mainRun src fs = ⟨1, [], []⟩) ∧
    (∀ fs : FileSystem, mainRun (.error ()) fs = ⟨1, [], []⟩) ∧
    (∀ (secs : List IniSection) (fs : FileSystem), requiredOk secs = false →
      (∃ e, load_config (.ok secs) = .error e) ∧ mainRun (.ok secs) fs = ⟨1, [], []⟩) := by
  refine ⟨?_, ?_, ?_⟩
  · intro src fs e h
    unfold mainRun
    rw [h]
  · intro fs
    rfl
  · intro secs fs hreq
    cases hl : load_config (.ok secs) with
    | error e =>
      refine ⟨⟨e, rfl⟩, ?_⟩
      unfold mainRun
      rw [hl]
    | ok cfg =>
      rw [load_config_ok_requiredOk secs cfg hl] at hreq
      exact absurd hreq (by simp)

/-- Witness for C9: an unreadable/malformed source, and a source missing
the `smtp` section, both exit 1 with no check evaluated. -/
theorem claim_C9_witness :
    mainRun (.error ()) (fun _ => none) = ⟨1, [], []⟩ ∧
    ((∃ e, load_config (.ok [(("email" : String),
        [(("recipients" : String), ("a@b" : String))])]) = .error e) ∧
      mainRun (.ok [(("email" : String), [(("recipients" : String), ("a@b" : String))])])
        (fun _ => none) = ⟨1, [], []⟩) ∧
    mainRun (.error ()) (fun _ => some (.dir true [.file (some 11)])) = ⟨1, [], []⟩ := by
  refine ⟨claim_C9.2.1 (fun _ => none), ?_, ?_⟩
  · exact claim_C9.2.2 [(("email" : String), [(("recipients" : String), ("a@b" : String))])]
      (fun _ => none) (by decide)
  · exact claim_C9.1 (.error ()) (fun _ => some (.dir true [.file (some 11)]))
      .readError (by decide)

end DirMonitor
